import Mathlib

/-!
Verification of the mcas autoscaler core against its specification.

The Go source is shallowly embedded: each Go function relevant to the
claims is translated into a Lean definition over explicit oracle inputs
that stand for the results of the external calls (Hetzner cloud API,
RCON channel, Prometheus).  Errors are modelled symbolically, mirroring
the wrapping structure produced by fmt.Errorf with the %w verb.
-/

deriving instance DecidableEq for Except

/-- Symbolic model of a Go error value.  A value built with fmt.Errorf
and the %w verb wraps an inner error under a message; a plain
fmt.Errorf without %w is a bare message. -/
inductive GoErr where
  | msg (s : String)
  | wrap (s : String) (inner : GoErr)
deriving DecidableEq

/-- Whether the error e carries t somewhere in its wrap chain
(that is, t is observable from e via errors.Unwrap / errors.Is). -/
def GoErr.mentions : GoErr → GoErr → Bool
  | .msg s, t => (GoErr.msg s) == t
  | .wrap s inner, t => ((GoErr.wrap s inner) == t) || inner.mentions t

/-- Status of a Hetzner cloud action (hcloud.ActionStatus).  Everything
that is neither success nor error keeps the poll loop running; the code
only ever tests for success and error. -/
inductive ActionStatus where
  | running
  | success
  | error
deriving DecidableEq

/-- The part of an hcloud.Action observed by the code: its status, and
the error value that action.Error() would yield (meaningful only when
the status is error). -/
structure PollAction where
  status : ActionStatus
  actionErr : GoErr
deriving DecidableEq

/-- Embedding of HCloudAutoscaler.waitForAction (hcloud.go:205-229).
The oracle poll gives the result of the n-th Action.GetByID call, where
n is the value of the attempt counter after its increment (so poll is
consulted at 1, 2, ...).  Returns the function result together with the
number of GetByID polls performed.  The fixed 5-second sleep between
polls is not modelled (no real time in the embedding); the context
cancellation branch is likewise outside this embedding. -/
def waitForAction (poll : Nat → Except GoErr PollAction) (attempt : Nat) :
    Except GoErr Unit × Nat :=
  if 24 < attempt then
    (.error (.msg "hcloud: action did not complete in time"), 0)
  else
    match poll (attempt + 1) with
    | .error e => (.error (.wrap "hcloud: failed to get action" e), 1)
    | .ok act =>
      if act.status = ActionStatus.success then (.ok (), 1)
      else if act.status = ActionStatus.error then
        (.error (.wrap "hcloud: action failed" act.actionErr), 1)
      else
        let r := waitForAction poll (attempt + 1)
        (r.1, r.2 + 1)
termination_by 25 - attempt

/-- Oracle for one ResizeServer invocation: the outcome of the
updateServerTypesUNLOCKED refresh (the resulting cache, by type name),
of the Server.ChangeType call (the returned action), of the successive
Action.GetByID polls, and of the Server.Poweron recovery call. -/
structure ResizeOracle where
  updateTypes : Except GoErr (List String)
  changeType : Except GoErr PollAction
  poll : Nat → Except GoErr PollAction
  poweron : Except GoErr Unit

/-- Embedding of HCloudAutoscaler.resizeServerInner (hcloud.go:191-203):
issue ChangeType; if the returned action is already successful, done;
otherwise wait for the action. -/
def resizeServerInner (o : ResizeOracle) : Except GoErr Unit :=
  match o.changeType with
  | .error e => .error (.wrap "hcloud: failed to resize server" e)
  | .ok action =>
    if action.status = ActionStatus.success then .ok ()
    else (waitForAction o.poll 0).1

/-- Embedding of HCloudAutoscaler.ResizeServer (hcloud.go:160-189).
Returns the result together with the number of Poweron calls issued.
Mirrors the source exactly, including the shadowed err inside the
recovery branch: when resizeServerInner fails and the Poweron call also
fails, the function returns only the wrapped Poweron error (the inner
declaration err := shadows the outer err holding the resize error);
when Poweron succeeds, the trailing return err yields the original
resize error. -/
def ResizeServer (o : ResizeOracle) (profile : String) :
    Except GoErr Unit × Nat :=
  match o.updateTypes with
  | .error e => (.error e, 0)
  | .ok types =>
    if types.contains profile then
      match resizeServerInner o with
      | .ok _ => (.ok (), 0)
      | .error e =>
        match o.poweron with
        | .error e2 => (.error (.wrap "hcloud: failed to power on server" e2), 1)
        | .ok _ => (.error e, 1)
    else
      (.error (.msg ("hcloud: server type not found: " ++ profile)), 0)

/-- A concrete oracle on which the inner resize step fails (ChangeType
returns an error) and the Poweron recovery call fails as well. -/
def c1Oracle : ResizeOracle where
  updateTypes := .ok ["cpx21"]
  changeType := .error (.msg "resize-request-rejected")
  poll := fun _ => .ok ⟨ActionStatus.running, .msg "unused"⟩
  poweron := .error (.msg "poweron-rejected")

/-- A pending action reply used by the timeout analysis. -/
def pendingReply : PollAction := ⟨ActionStatus.running, .msg "unused"⟩

/-- If every poll reports a still-running action, waitForAction from
counter value attempt times out after performing 25 - attempt polls. -/
theorem waitForAction_pending_eq (poll : Nat → Except GoErr PollAction)
    (hp : ∀ n, ∃ act, poll n = Except.ok act ∧ act.status = ActionStatus.running)
    (m : Nat) :
    ∀ attempt, 25 - attempt = m →
      waitForAction poll attempt =
        (.error (.msg "hcloud: action did not complete in time"), m) := by
  induction m with
  | zero =>
    intro attempt h
    have h24 : 24 < attempt := by omega
    unfold waitForAction
    simp [h24]
  | succ k ih =>
    intro attempt h
    have h24 : ¬ 24 < attempt := by omega
    obtain ⟨act, hpa, hst⟩ := hp (attempt + 1)
    unfold waitForAction
    simp only [h24, if_false, hpa, hst]
    have hnext := ih (attempt + 1) (by omega)
    simp [hnext]

/-- Claim C1 (code versus spec): on the oracle where the inner resize
step fails and the Poweron recovery also fails, ResizeServer issues
exactly one Poweron call but returns an error that wraps only the
Poweron failure; the original resize error is not observable in the
result, contradicting the stated property that recovery failure never
masks the original resize error. -/
theorem claim_C1_code_eval :
    ResizeServer c1Oracle "cpx21" =
      (.error (.wrap "hcloud: failed to power on server" (.msg "poweron-rejected")), 1) ∧
    GoErr.mentions
      (.wrap "hcloud: failed to power on server" (.msg "poweron-rejected"))
      (.msg "resize-request-rejected") = false := by
  constructor
  · rfl
  · rfl

/-- Claim C2, counterexample: when every poll reports a pending action,
waitForAction performs 25 polls before returning the timeout error, not
24 as the claim states. -/
theorem claim_C2_counterexample :
    waitForAction (fun _ => Except.ok pendingReply) 0 =
      (.error (.msg "hcloud: action did not complete in time"), 25) ∧
    (25 : Nat) ≠ 24 :=
  ⟨waitForAction_pending_eq _ (fun _ => ⟨pendingReply, rfl, rfl⟩) 25 0 rfl, by decide⟩

/-- Claim C2, amended: for every async cloud action whose status is
reported as pending (still running) on every poll, waitForAction
returns the timeout error exactly after the 25th poll attempt, not
before and not after. -/
theorem claim_C2_amended (poll : Nat → Except GoErr PollAction)
    (hp : ∀ n, ∃ act, poll n = Except.ok act ∧ act.status = ActionStatus.running) :
    waitForAction poll 0 =
      (.error (.msg "hcloud: action did not complete in time"), 25) :=
  waitForAction_pending_eq poll hp 25 0 rfl

/-- Claim C2 witness: the amended statement applied to the constant
pending oracle. -/
theorem claim_C2_amended_witness :
    waitForAction (fun _ => Except.ok pendingReply) 0 =
      (.error (.msg "hcloud: action did not complete in time"), 25) :=
  claim_C2_amended (fun _ => Except.ok pendingReply)
    (fun _ => ⟨pendingReply, rfl, rfl⟩)

/-- Embedding of Autoscaler.getNewSize (scaler.go:73-82): clamp
current + action into [0, len(sizes)-1] and return the new index with
the size at that index.  An out-of-range access (only possible when
sizes is empty, where the clamp yields -1 and Go would panic) is
modelled as none. -/
def getNewSize (current action : Int) (sizes : List String) : Int × Option String :=
  let newIndex := current + action
  let newIndex := if newIndex < 0 then 0 else newIndex
  let newIndex := if (sizes.length : Int) ≤ newIndex then (sizes.length : Int) - 1 else newIndex
  (newIndex, if newIndex < 0 then none else sizes.get? newIndex.toNat)

/-- External calls observed by one DoScale invocation, in order. -/
inductive CallEv where
  | getAvailableSizes
  | getCurrentSizeCall
  | drain
  | stopServer
  | resizeServer
deriving DecidableEq

/-- Oracle for Autoscaler.getCurrentSize: outcomes of the provider
calls GetAvailableSizes and GetCurrentSize. -/
structure SizeOracle where
  available : Except GoErr (List String)
  current : Except GoErr String
deriving DecidableEq

/-- Embedding of Autoscaler.getCurrentSize (scaler.go:52-71): fetch the
available sizes, keep only the allow-listed ones, fetch the current
size, and locate it in the filtered list.  Returns the result together
with the trace of provider calls made. -/
def getCurrentSize (allowed : List String) (o : SizeOracle) :
    Except GoErr (Nat × List String) × List CallEv :=
  match o.available with
  | .error e => (.error (.wrap "failed to get scale sizes" e), [.getAvailableSizes])
  | .ok sizes0 =>
    let sizes := sizes0.filter (fun s => allowed.contains s)
    match o.current with
    | .error e =>
      (.error (.wrap "failed to get current size" e),
       [.getAvailableSizes, .getCurrentSizeCall])
    | .ok current =>
      match sizes.findIdx? (fun s => s == current) with
      | none =>
        (.error (.msg ("current size (" ++ current ++ ") not found in sizes")),
         [.getAvailableSizes, .getCurrentSizeCall])
      | some i => (.ok (i, sizes), [.getAvailableSizes, .getCurrentSizeCall])

/-- The mutable state owned by the orchestrator: the scaleLock mutex
(true when held) and the lastScaledAt timestamp.  Time values are
integers (nanoseconds since some epoch, as in Go time). -/
structure ScalerState where
  scaleLockHeld : Bool
  lastScaledAt : Int
deriving DecidableEq

/-- Inputs of one DoScale invocation: the configuration, the value of
time.Now() at the cooldown check and at the final lastScaledAt update,
the requested direction, and the outcomes of the external steps. -/
structure DoScaleIn where
  allowedSizes : List String
  minTimeBetweenActions : Int
  now : Int
  nowAtEnd : Int
  direction : Int
  sizeO : SizeOracle
  prepare : Except GoErr Unit
  stopServer : Except GoErr Unit
  resizeServer : Except GoErr Unit
deriving DecidableEq

/-- Embedding of Autoscaler.DoScale (scaler.go:168-203).  The deferred
scaleLock.Unlock applies on every return path after a successful
TryLock, so each such exit yields a state with scaleLockHeld = false;
the deferred unlock is written explicitly at each exit, mirroring the
defer.  Returns the result, the final state, and the trace of
drain/provider calls made. -/
def DoScale (st : ScalerState) (i : DoScaleIn) :
    Except GoErr Unit × ScalerState × List CallEv :=
  if st.scaleLockHeld then
    (.error (.msg "scaling already in progress"), st, [])
  else
    let locked : ScalerState := { st with scaleLockHeld := true }
    if st.lastScaledAt + i.minTimeBetweenActions > i.now then
      (.error (.msg "scaling too soon"), { locked with scaleLockHeld := false }, [])
    else
      match getCurrentSize i.allowedSizes i.sizeO with
      | (.error e, tr) =>
        (.error (.wrap "failed to get current size" e),
         { locked with scaleLockHeld := false }, tr)
      | (.ok (currentIndex, sizes), tr) =>
        let _newSize := (getNewSize currentIndex i.direction sizes).2
        match i.prepare with
        | .error e =>
          (.error (.wrap "failed to prepare for scaling action" e),
           { locked with scaleLockHeld := false }, tr ++ [.drain])
        | .ok _ =>
          match i.stopServer with
          | .error e =>
            (.error (.wrap "failed to stop server" e),
             { locked with scaleLockHeld := false }, tr ++ [.drain, .stopServer])
          | .ok _ =>
            match i.resizeServer with
            | .error e =>
              (.error (.wrap "failed to resize server" e),
               { locked with scaleLockHeld := false },
               tr ++ [.drain, .stopServer, .resizeServer])
            | .ok _ =>
              (.ok (),
               { scaleLockHeld := false, lastScaledAt := i.nowAtEnd },
               tr ++ [.drain, .stopServer, .resizeServer])

/-- The trace of getCurrentSize always starts with the
GetAvailableSizes provider call. -/
theorem getCurrentSize_trace_head (allowed : List String) (o : SizeOracle) :
    ∃ rest, (getCurrentSize allowed o).2 = CallEv.getAvailableSizes :: rest := by
  unfold getCurrentSize
  dsimp only
  repeat' split
  all_goals exact ⟨_, rfl⟩

/-- Claim C3: whenever DoScale succeeds in acquiring the exclusivity
lock (it was free on entry), the lock is released again on every exit
path, so no error leaves the system permanently unable to scale. -/
theorem claim_C3 (st : ScalerState) (i : DoScaleIn)
    (h : st.scaleLockHeld = false) :
    ((DoScale st i).2.1).scaleLockHeld = false := by
  unfold DoScale
  simp only [h]
  repeat' split
  all_goals simp_all

/-- A concrete DoScale input on which every stage succeeds. -/
def okScaleIn : DoScaleIn where
  allowedSizes := ["cx11", "cx21"]
  minTimeBetweenActions := 10
  now := 20
  nowAtEnd := 30
  direction := 1
  sizeO := { available := .ok ["cx11", "cx21"], current := .ok "cx11" }
  prepare := .ok ()
  stopServer := .ok ()
  resizeServer := .ok ()

/-- Claim C3 witness: the released-lock property at a concrete input. -/
theorem claim_C3_witness :
    ((DoScale ⟨false, 0⟩ okScaleIn).2.1).scaleLockHeld = false :=
  claim_C3 ⟨false, 0⟩ okScaleIn rfl

/-- Claim C4: a DoScale invocation that returns an error leaves
lastScaledAt unchanged, and an invocation that returns success sets
lastScaledAt to the time observed at the end of the run. -/
theorem claim_C4 (st : ScalerState) (i : DoScaleIn) :
    (∀ e, (DoScale st i).1 = .error e →
      ((DoScale st i).2.1).lastScaledAt = st.lastScaledAt) ∧
    ((DoScale st i).1 = .ok () →
      ((DoScale st i).2.1).lastScaledAt = i.nowAtEnd) := by
  unfold DoScale
  repeat' split
  all_goals refine ⟨fun e he => ?_, fun hok => ?_⟩
  all_goals simp_all

/-- Claim C4 witness: a concrete failed run keeps lastScaledAt and a
concrete successful run sets it to the end-of-run time. -/
theorem claim_C4_witness :
    ((DoScale ⟨false, 0⟩
        { okScaleIn with resizeServer := .error (.msg "boom") }).2.1).lastScaledAt = 0 ∧
    ((DoScale ⟨false, 0⟩ okScaleIn).2.1).lastScaledAt = 30 :=
  ⟨(claim_C4 ⟨false, 0⟩ { okScaleIn with resizeServer := .error (.msg "boom") }).1
      (.wrap "failed to resize server" (.msg "boom")) (by decide),
   (claim_C4 ⟨false, 0⟩ okScaleIn).2 (by decide)⟩

/-- Claim C5: with the lock free, a DoScale invocation strictly before
lastScaledAt + minTimeBetweenActions fails with the cooldown error and
performs no drain or provider call, while an invocation strictly after
that instant proceeds past the cooldown check into the size fetch. -/
theorem claim_C5 (st : ScalerState) (i : DoScaleIn)
    (h : st.scaleLockHeld = false) :
    (i.now < st.lastScaledAt + i.minTimeBetweenActions →
      (DoScale st i).1 = .error (.msg "scaling too soon") ∧
      (DoScale st i).2.2 = []) ∧
    (st.lastScaledAt + i.minTimeBetweenActions < i.now →
      (DoScale st i).2.2.head? = some CallEv.getAvailableSizes) := by
  refine ⟨fun hlt => ?_, fun hgt => ?_⟩
  · have hc : st.lastScaledAt + i.minTimeBetweenActions > i.now := hlt
    unfold DoScale
    simp [h, hc]
  · have hc : ¬ st.lastScaledAt + i.minTimeBetweenActions > i.now := by omega
    obtain ⟨rest, hrest⟩ := getCurrentSize_trace_head i.allowedSizes i.sizeO
    unfold DoScale
    simp only [h, hc, if_false, Bool.false_eq_true]
    repeat' split
    all_goals simp_all

/-- Claim C5 witness: the cooldown rejection at a concrete early
invocation and the proceed behaviour at a concrete late one. -/
theorem claim_C5_witness :
    ((DoScale ⟨false, 100⟩ okScaleIn).1 = .error (.msg "scaling too soon") ∧
     (DoScale ⟨false, 100⟩ okScaleIn).2.2 = []) ∧
    (DoScale ⟨false, 0⟩ okScaleIn).2.2.head? = some CallEv.getAvailableSizes :=
  ⟨(claim_C5 ⟨false, 100⟩ okScaleIn rfl).1 (by decide),
   (claim_C5 ⟨false, 0⟩ okScaleIn rfl).2 (by decide)⟩

/-- Claim C7: one step up followed by one step down through getNewSize
returns the starting index whenever that index is neither the bottom
nor the top of the ladder (the clamp is not a wraparound). -/
theorem claim_C7 (sizes : List String) (i : Int) (h0 : 0 ≤ i)
    (h1 : i < sizes.length) (h2 : i ≠ 0) (h3 : i ≠ (sizes.length : Int) - 1) :
    (getNewSize (getNewSize i 1 sizes).1 (-1) sizes).1 = i := by
  simp only [getNewSize]
  split_ifs <;> omega

/-- Claim C7 witness: the round trip at index 1 of a three-rung
ladder. -/
theorem claim_C7_witness :
    ((0 : Int) ≤ 1 ∧ (1 : Int) < (["a", "b", "c"] : List String).length ∧
      (1 : Int) ≠ 0 ∧ (1 : Int) ≠ ((["a", "b", "c"] : List String).length : Int) - 1) ∧
    (getNewSize (getNewSize 1 1 ["a", "b", "c"]).1 (-1) ["a", "b", "c"]).1 = 1 :=
  ⟨by decide,
   claim_C7 ["a", "b", "c"] 1 (by decide) (by decide) (by decide) (by decide)⟩

/-- The shape of a Prometheus query result as observed by the type
assertion r.(model.Vector): either a vector with some number of
entries, or a value of another type whose Go type name is recorded. -/
inductive MetricResult where
  | vector (entries : Nat)
  | nonVector (tyName : String)
deriving DecidableEq

/-- Embedding of Autoscaler.EvaluateRule (rules source, lines 55-66 of
the autoscaler rules file): a failed query is wrapped; a non-vector
result is a distinct error; a vector result is true when non-empty. -/
def EvaluateRule (queryResult : Except GoErr MetricResult) : Except GoErr Bool :=
  match queryResult with
  | .error e => .error (.wrap "failed to query for rule" e)
  | .ok (.vector n) => .ok (decide (0 < n))
  | .ok (.nonVector t) => .error (.msg ("expected vector result, got " ++ t))

/-- One rule of the core loop together with the oracle outcomes of the
calls made on its behalf: the metric query result, the CanScale check,
and the DoScale execution. -/
structure LoopRule where
  queryResult : Except GoErr MetricResult
  action : Int
  canScale : Except GoErr Bool
  doScale : Except GoErr Unit
deriving DecidableEq

/-- The rule scan of Autoscaler.CoreLoop: walk the rules in order,
stopping at the first error, at the first rule whose condition holds,
or at the end of the list.  Returns the result together with the
number of rules evaluated. -/
def coreLoopRules : List LoopRule → Except GoErr Unit × Nat
  | [] => (.ok (), 0)
  | r :: rest =>
    match EvaluateRule r.queryResult with
    | .error e => (.error (.wrap "failed to evaluate rule" e), 1)
    | .ok false =>
      let t := coreLoopRules rest
      (t.1, t.2 + 1)
    | .ok true =>
      match r.canScale with
      | .error e => (.error (.wrap "failed to check if can scale" e), 1)
      | .ok true => (r.doScale, 1)
      | .ok false => (.ok (), 1)

/-- Embedding of Autoscaler.CoreLoop (rules source, lines 217-244 of
the combined file): skip the whole cycle when scaling is in progress,
otherwise scan the rules. -/
def CoreLoop (inProgress : Bool) (rules : List LoopRule) : Except GoErr Unit × Nat :=
  if inProgress then (.ok (), 0)
  else coreLoopRules rules

/-- Claim C8: a rule whose query succeeds with a non-vector result
makes EvaluateRule return an error, and CoreLoop propagates it: the
cycle ends with that hard error after evaluating only the rules up to
and including the offending one. -/
theorem claim_C8 (pre : List LoopRule) (r : LoopRule) (post : List LoopRule)
    (t : String)
    (hpre : ∀ p ∈ pre, EvaluateRule p.queryResult = .ok false)
    (hr : r.queryResult = .ok (.nonVector t)) :
    EvaluateRule r.queryResult =
      .error (.msg ("expected vector result, got " ++ t)) ∧
    CoreLoop false (pre ++ r :: post) =
      (.error (.wrap "failed to evaluate rule"
        (.msg ("expected vector result, got " ++ t))), pre.length + 1) := by
  have heval : EvaluateRule r.queryResult =
      .error (.msg ("expected vector result, got " ++ t)) := by
    rw [hr]; rfl
  refine ⟨heval, ?_⟩
  unfold CoreLoop
  simp only [if_false, Bool.false_eq_true]
  induction pre with
  | nil =>
    simp only [List.nil_append, List.length_nil, coreLoopRules, heval]
  | cons p ps ih =>
    have hp : EvaluateRule p.queryResult = .ok false := hpre p (by simp)
    have hps : ∀ q ∈ ps, EvaluateRule q.queryResult = .ok false := by
      intro q hq
      exact hpre q (by simp [hq])
    have hrec := ih hps
    simp only [List.cons_append, coreLoopRules, hp, List.length_cons, List.append_eq]
    rw [hrec]

/-- Claim C8 witness: a concrete cycle with one false rule, then a rule
whose query yields a scalar, then a further rule that is never
reached. -/
theorem claim_C8_witness :
    CoreLoop false
      [{ queryResult := .ok (.vector 0), action := 1,
         canScale := .ok true, doScale := .ok () },
       { queryResult := .ok (.nonVector "*model.Scalar"), action := -1,
         canScale := .ok true, doScale := .ok () },
       { queryResult := .ok (.vector 3), action := 1,
         canScale := .ok true, doScale := .ok () }] =
      (.error (.wrap "failed to evaluate rule"
        (.msg ("expected vector result, got " ++ "*model.Scalar"))), 2) :=
  (claim_C8
    [{ queryResult := .ok (.vector 0), action := 1,
       canScale := .ok true, doScale := .ok () }]
    { queryResult := .ok (.nonVector "*model.Scalar"), action := -1,
      canScale := .ok true, doScale := .ok () }
    [{ queryResult := .ok (.vector 3), action := 1,
       canScale := .ok true, doScale := .ok () }]
    "*model.Scalar" (by decide) rfl).2

/-- Embedding of strings.Cut(s, " "): split around the first space,
none when the separator does not occur. -/
def cutSpace : List Char → Option (List Char × List Char)
  | [] => none
  | c :: rest =>
    if c == ' ' then some ([], rest)
    else
      match cutSpace rest with
      | none => none
      | some (before, after) => some (c :: before, after)

/-- Accumulator pass of decimal digit parsing. -/
def digitsValAux : Nat → List Char → Nat
  | acc, [] => acc
  | acc, c :: rest => digitsValAux (acc * 10 + (c.toNat - '0'.toNat)) rest

/-- Embedding of strconv.Atoi: optional sign, then one or more decimal
digits making up the whole string.  Machine-integer range errors are
not modelled (the operands of interest are small). -/
def atoi (s : List Char) : Option Int :=
  match s with
  | [] => none
  | '+' :: rest =>
    if rest ≠ [] && rest.all Char.isDigit then some ((digitsValAux 0 rest : Nat) : Int)
    else none
  | '-' :: rest =>
    if rest ≠ [] && rest.all Char.isDigit then some (-((digitsValAux 0 rest : Nat) : Int))
    else none
  | _ =>
    if s.all Char.isDigit then some ((digitsValAux 0 s : Nat) : Int)
    else none

/-- Embedding of ScaleSchedule.evaluateIfSize (schedule source, lines
72-98): cut the guard at the first space, parse the operand, then
dispatch on the operator string.  The Go switch arm for the operator
string of two equals signs has an empty body and no fallthrough, so
control leaves the switch and reaches the trailing invalid-operator
return of false; the arm for a single equals sign compares the current
index with the operand. -/
def evaluateIfSize (ifSize : List Char) (current : Int) : Bool :=
  match cutSpace ifSize with
  | none => false
  | some (op, operandStr) =>
    match atoi operandStr with
    | none => false
    | some operand =>
      if op == ['>'] then decide (operand < current)
      else if op == ['<'] then decide (current < operand)
      else if op == ['>', '='] then decide (operand ≤ current)
      else if op == ['<', '='] then decide (current ≤ operand)
      else if op == ['=', '='] then false
      else if op == ['='] then decide (current = operand)
      else false

/-- cutSpace on a guard whose operator part has no space returns the
operator and the remainder unchanged. -/
theorem cutSpace_eq_op (s : List Char) :
    cutSpace ('=' :: ' ' :: s) = some (['='], s) ∧
    cutSpace ('=' :: '=' :: ' ' :: s) = some (['=', '='], s) := by
  constructor <;> rfl

/-- Claim C9: for every current ladder index and every operand, the
size guard written with a single equals sign evaluates to true exactly
when the index equals the operand, while the guard written with two
equals signs is ignored and evaluates to false. -/
theorem claim_C9 (i k : Int) (s : List Char) (hs : atoi s = some k) :
    evaluateIfSize ('=' :: ' ' :: s) i = decide (i = k) ∧
    evaluateIfSize ('=' :: '=' :: ' ' :: s) i = false := by
  obtain ⟨h1, h2⟩ := cutSpace_eq_op s
  constructor
  · unfold evaluateIfSize
    rw [h1]
    simp [hs]
  · unfold evaluateIfSize
    rw [h2]
    simp [hs]

/-- Claim C9 witness: the guard strings applied at index 7 with
operand 7. -/
theorem claim_C9_witness :
    evaluateIfSize ['=', ' ', '7'] 7 = true ∧
    evaluateIfSize ['=', '=', ' ', '7'] 7 = false := by
  have h := claim_C9 7 7 ['7'] (by decide)
  exact ⟨by rw [h.1]; decide, h.2⟩

/-- The RCON broadcast command chosen by prepareForScalingAction
(scaler.go:104-109) from the configured pre-shutdown message. -/
inductive NotifyCmd where
  | tellraw (payload : List Char)
  | say (payload : List Char)
deriving DecidableEq

/-- Embedding of the message dispatch of prepareForScalingAction
(scaler.go:105): the first byte of the configured message is indexed
unconditionally; a leading opening-brace byte (written \x7b) selects
the rich-text tellraw broadcast, any other first byte the plain say
broadcast.  On the empty message the Go indexing panics with an
index-out-of-range runtime error, modelled as none; none means no
notification command is ever produced. -/
def chooseNotifyCommand (msg : List Char) : Option NotifyCmd :=
  match msg with
  | [] => none
  | c :: _ =>
    if c == '\x7b' then some (NotifyCmd.tellraw msg)
    else some (NotifyCmd.say msg)

/-- Claim C10: the notify dispatch is total exactly on non-empty
messages: it panics (yields no command) precisely when the configured
pre-shutdown message is empty, and for every non-empty message the
first-byte access is in bounds and a broadcast command is produced. -/
theorem claim_C10 (msg : List Char) :
    (chooseNotifyCommand msg = none ↔ msg = []) ∧
    (∀ c rest, msg = c :: rest → (chooseNotifyCommand msg).isSome = true) := by
  constructor
  · constructor
    · intro h
      cases msg with
      | nil => rfl
      | cons c rest =>
        unfold chooseNotifyCommand at h
        by_cases hc : c == '\x7b' <;> simp [hc] at h
    · intro h
      rw [h]
      rfl
  · intro c rest h
    rw [h]
    unfold chooseNotifyCommand
    by_cases hc : c == '\x7b' <;> simp [hc]

/-- Claim C10 witness: the dispatch at the empty message and at a
concrete non-empty message. -/
theorem claim_C10_witness :
    (chooseNotifyCommand [] = none ↔ ([] : List Char) = []) ∧
    (chooseNotifyCommand ['h', 'i']).isSome = true :=
  ⟨(claim_C10 []).1, (claim_C10 ['h', 'i']).2 'h' ['i'] rfl⟩

/-- Embedding of the replacement performed by
formatRe.ReplaceAllString(resp, "") in the earlier version of the drain
loop (part_000:151, pattern bytes c2 a7 = section sign, then one of
0-9a-z): scan left to right, deleting each marker pair, otherwise
keeping the character. -/
def stripFormat : List Char → List Char
  | [] => []
  | [c] => [c]
  | c1 :: c2 :: rest =>
    if c1 == '§' && (c2.isDigit || c2.isLower) then stripFormat rest
    else c1 :: stripFormat (c2 :: rest)

/-- Embedding of the replacement performed by
formatRe.ReplaceAllString(resp, "") in the current drain loop
(scaler.go:135): the pattern literal there is the bytes
e0 b8 a2 e0 b8 87, the UTF-8 double-encoding of the section sign, which
decodes to the two runes U+0E22 and U+0E07; the regular expression thus
matches that three-rune sequence (U+0E22, U+0E07, one of 0-9a-z) and
never a section-sign pair. -/
def stripFormatCur : List Char → List Char
  | [] => []
  | [c] => [c]
  | [c1, c2] => [c1, c2]
  | c1 :: c2 :: c3 :: rest =>
    if c1 == 'ย' && c2 == 'ง' && (c3.isDigit || c3.isLower) then stripFormatCur rest
    else c1 :: stripFormatCur (c2 :: c3 :: rest)

/-- Modelled from the spec: the stripping step as the claim words it,
with the style marker being the marker character followed by one
alphanumeric (the code instead restricts the second character to
digits and lowercase letters). -/
def stripFormatAlnum : List Char → List Char
  | [] => []
  | [c] => [c]
  | c1 :: c2 :: rest =>
    if c1 == '§' && c2.isAlphanum then stripFormatAlnum rest
    else c1 :: stripFormatAlnum (c2 :: rest)

/-- Match a literal pattern at the head of a string, yielding the
remainder. -/
def dropExact : List Char → List Char → Option (List Char)
  | [], s => some s
  | _ :: _, [] => none
  | p :: ps, c :: cs => if p == c then dropExact ps cs else none

/-- Maximal run of leading decimal digits and the remainder, the
behaviour of a greedy digit-class plus in the regular expression. -/
def takeDigits : List Char → List Char × List Char
  | [] => ([], [])
  | c :: rest =>
    if c.isDigit then
      let t := takeDigits rest
      (c :: t.1, t.2)
    else ([], c :: rest)

/-- The literal pieces of the occupancy pattern of listRe:
the text before the captured count, the text between the two counts,
and the closing text including the final full stop. -/
def thereAreS : List Char :=
  ['T', 'h', 'e', 'r', 'e', ' ', 'a', 'r', 'e', ' ']

/-- Middle literal of the occupancy pattern. -/
def outOfS : List Char :=
  [' ', 'o', 'u', 't', ' ', 'o', 'f', ' ', 'm', 'a', 'x', 'i', 'm', 'u', 'm', ' ']

/-- Closing literal of the occupancy pattern. -/
def onlineS : List Char :=
  [' ', 'p', 'l', 'a', 'y', 'e', 'r', 's', ' ', 'o', 'n', 'l', 'i', 'n', 'e', '.']

/-- Attempt to match listRe anchored at the current position: the first
literal, one or more digits (captured), the middle literal, one or more
digits, and the closing literal; the trailing dot-star of the pattern
never affects whether a match exists.  Yields the captured count. -/
def matchNAt (s : List Char) : Option (List Char) :=
  match dropExact thereAreS s with
  | none => none
  | some s1 =>
    match takeDigits s1 with
    | ([], _) => none
    | (ds, s2) =>
      match dropExact outOfS s2 with
      | none => none
      | some s3 =>
        match takeDigits s3 with
        | ([], _) => none
        | (_, s4) =>
          match dropExact onlineS s4 with
          | none => none
          | some _ => some ds

/-- listRe.FindStringSubmatch: the leftmost position at which the
pattern matches, yielding the captured count, or none. -/
def findMatchN : List Char → Option (List Char)
  | [] => matchNAt []
  | c :: rest =>
    match matchNAt (c :: rest) with
    | some ds => some ds
    | none => findMatchN rest

/-- Outcome of one parse step of the waitForServerToBeEmpty poll loop:
the stripped response either fails to match the pattern (a hard
protocol-mismatch error), or matches with the captured count compared
against the literal digit zero. -/
inductive ListPollStep where
  | empty
  | occupied (count : List Char)
  | protocolMismatch
deriving DecidableEq

/-- One parse step of the earlier waitForServerToBeEmpty
(part_000:165-172): strip the style markers with the section-sign
pattern, run the pattern match, and compare the captured count with
zero. -/
def listPollStep (resp : List Char) : ListPollStep :=
  match findMatchN (stripFormat resp) with
  | none => ListPollStep.protocolMismatch
  | some ds => if ds == ['0'] then ListPollStep.empty else ListPollStep.occupied ds

/-- One parse step of the current waitForServerToBeEmpty
(scaler.go:149-157): identical except that the stripping uses the
corrupted pattern of scaler.go:135. -/
def listPollStepCur (resp : List Char) : ListPollStep :=
  match findMatchN (stripFormatCur resp) with
  | none => ListPollStep.protocolMismatch
  | some ds => if ds == ['0'] then ListPollStep.empty else ListPollStep.occupied ds

/-- r is u with zero or more code-class style markers (marker character
followed by a digit or lowercase letter) inserted. -/
inductive MarkedLow : List Char → List Char → Prop where
  | nil : MarkedLow [] []
  | keep (c : Char) {u r : List Char} :
      MarkedLow u r → MarkedLow (c :: u) (c :: r)
  | mark (c : Char) {u r : List Char} :
      (c.isDigit || c.isLower) = true → MarkedLow u r → MarkedLow u ('§' :: c :: r)

/-- Every string is a marking of itself. -/
theorem markedLow_refl : ∀ s : List Char, MarkedLow s s
  | [] => MarkedLow.nil
  | c :: rest => MarkedLow.keep c (markedLow_refl rest)

/-- Stripping passes over a leading character that is not the marker. -/
theorem stripFormat_cons_ne {c : Char} (hc : c ≠ '§') (r : List Char) :
    stripFormat (c :: r) = c :: stripFormat r := by
  cases r with
  | nil => rfl
  | cons c2 rest => simp [stripFormat, hc]

/-- Stripping removes a leading code-class marker pair. -/
theorem stripFormat_marker {c : Char} (hc : (c.isDigit || c.isLower) = true)
    (r : List Char) : stripFormat ('§' :: c :: r) = stripFormat r := by
  simp [stripFormat, hc]

/-- A string without the marker character is left unchanged. -/
theorem stripFormat_no_marker : ∀ s : List Char, '§' ∉ s → stripFormat s = s
  | [], _ => rfl
  | [c], _ => rfl
  | c1 :: c2 :: rest, h => by
    have h1 : c1 ≠ '§' := fun hh => h (by simp [hh])
    rw [stripFormat_cons_ne h1]
    rw [stripFormat_no_marker (c2 :: rest) (fun hm => h (List.mem_cons_of_mem _ hm))]

/-- Stripping a marked string recovers the marker-free original. -/
theorem stripFormat_marked {u r : List Char} (h : MarkedLow u r)
    (hm : '§' ∉ u) : stripFormat r = u := by
  induction h with
  | nil => rfl
  | keep c h ih =>
    have hc : c ≠ '§' := fun hh => hm (by simp [hh])
    rw [stripFormat_cons_ne hc]
    rw [ih (fun hmi => hm (List.mem_cons_of_mem _ hmi))]
  | mark c hcls h ih =>
    rw [stripFormat_marker hcls]
    exact ih hm

/-- Dropping a literal from a string beginning with it leaves the
rest. -/
theorem dropExact_append (p s : List Char) : dropExact p (p ++ s) = some s := by
  induction p with
  | nil => rfl
  | cons c cs ih => simp [dropExact, ih]

/-- takeDigits splits an all-digit run from a remainder that does not
begin with a digit. -/
theorem takeDigits_append (n rest : List Char)
    (hn : ∀ c ∈ n, c.isDigit = true)
    (hrest : ∀ c, rest.head? = some c → c.isDigit = false) :
    takeDigits (n ++ rest) = (n, rest) := by
  induction n with
  | nil =>
    cases rest with
    | nil => rfl
    | cons c r2 => simp [takeDigits, hrest c rfl]
  | cons d ds ih =>
    have hd : d.isDigit = true := hn d (by simp)
    have hds : ∀ c ∈ ds, c.isDigit = true := fun c hc => hn c (by simp [hc])
    simp [takeDigits, hd, ih hds]

/-- The composed occupancy response with counts n and m. -/
def mkListResp (n m : List Char) : List Char :=
  thereAreS ++ (n ++ (outOfS ++ (m ++ onlineS)))

/-- The anchored matcher captures n from a well-shaped response. -/
theorem matchNAt_mk (n m : List Char)
    (hn : ∀ c ∈ n, c.isDigit = true) (hn0 : n ≠ [])
    (hm : ∀ c ∈ m, c.isDigit = true) (hm0 : m ≠ []) :
    matchNAt (mkListResp n m) = some n := by
  have h1 : takeDigits (n ++ (outOfS ++ (m ++ onlineS))) = (n, outOfS ++ (m ++ onlineS)) := by
    apply takeDigits_append n _ hn
    intro c hc
    simp only [outOfS, List.cons_append, List.head?_cons, Option.some.injEq] at hc
    rw [← hc]
    rfl
  have h2 : takeDigits (m ++ onlineS) = (m, onlineS) := by
    apply takeDigits_append m _ hm
    intro c hc
    simp only [onlineS, List.cons_append, List.head?_cons, Option.some.injEq] at hc
    rw [← hc]
    rfl
  have h3 : dropExact onlineS onlineS = some [] := by
    have := dropExact_append onlineS []
    simpa using this
  cases n with
  | nil => exact absurd rfl hn0
  | cons d ds =>
    cases m with
    | nil => exact absurd rfl hm0
    | cons e es =>
      unfold matchNAt mkListResp
      simp only [dropExact_append, h1, h2, h3]

/-- A match at the first position is the leftmost match. -/
theorem findMatchN_of_matchNAt {s ds : List Char} (h : matchNAt s = some ds) :
    findMatchN s = some ds := by
  cases s with
  | nil => simpa [findMatchN] using h
  | cons c rest => simp [findMatchN, h]

/-- The marker character occurs nowhere in a well-shaped response made
of digits and the pattern literals. -/
theorem mkListResp_no_marker (n m : List Char)
    (hn : ∀ c ∈ n, c.isDigit = true) (hm : ∀ c ∈ m, c.isDigit = true) :
    '§' ∉ mkListResp n m := by
  intro hmem
  simp only [mkListResp, List.mem_append] at hmem
  rcases hmem with h | h | h | h | h
  · revert h; decide
  · have := hn '§' h
    revert this; decide
  · revert h; decide
  · have := hm '§' h
    revert this; decide
  · revert h; decide

/-- The earlier version of the drain loop (part_000) strips code-class
style markers (section sign followed by a digit or lowercase letter) as
the spec describes: a response with such markers embedded parses
identically to the unmarked text; a response of the literal shape with
counts n and m ends the wait exactly when the captured count is the
single digit zero, and reports the occupancy otherwise; and a response
that does not match the shape after stripping is a hard
protocol-mismatch error rather than being treated as still occupied. -/
theorem listPollStep_marked_equiv :
    (∀ u r : List Char, MarkedLow u r → '§' ∉ u →
      listPollStep r = listPollStep u) ∧
    (∀ n m : List Char, (∀ c ∈ n, c.isDigit = true) → n ≠ [] →
      (∀ c ∈ m, c.isDigit = true) → m ≠ [] →
      listPollStep (mkListResp n m) =
        if n = ['0'] then ListPollStep.empty else ListPollStep.occupied n) ∧
    (∀ resp : List Char, findMatchN (stripFormat resp) = none →
      listPollStep resp = ListPollStep.protocolMismatch) := by
  refine ⟨?_, ?_, ?_⟩
  · intro u r h hm
    unfold listPollStep
    rw [stripFormat_marked h hm, stripFormat_no_marker u hm]
  · intro n m hn hn0 hm hm0
    have hmk := matchNAt_mk n m hn hn0 hm hm0
    have hfind := findMatchN_of_matchNAt hmk
    unfold listPollStep
    rw [stripFormat_no_marker _ (mkListResp_no_marker n m hn hm), hfind]
    by_cases h0 : n = ['0'] <;> simp [h0]
  · intro resp h
    unfold listPollStep
    rw [h]

/-- Claim C6 (code versus spec): on the response carrying the genuine
style marker of a section sign followed by the lowercase letter a,
stripping as the claim describes it (marker plus one alphanumeric)
yields the unmarked text, whose parse ends the wait successfully; but
the current drain loop of scaler.go strips nothing, because its pattern
literal is the double-encoded corruption of the section sign that never
matches a section-sign pair, so the same response is reported as a hard
protocol-mismatch error instead of behaving like the unmarked text.
The earlier version of the same loop (part_000) handles it as the claim
states, confirming the corrupted literal is a slip. -/
theorem claim_C6_code_eval :
    stripFormatAlnum "There are §a0 out of maximum 20 players online.".toList =
      "There are 0 out of maximum 20 players online.".toList ∧
    listPollStepCur "There are 0 out of maximum 20 players online.".toList =
      ListPollStep.empty ∧
    stripFormatCur "There are §a0 out of maximum 20 players online.".toList =
      "There are §a0 out of maximum 20 players online.".toList ∧
    listPollStepCur "There are §a0 out of maximum 20 players online.".toList =
      ListPollStep.protocolMismatch ∧
    listPollStep "There are §a0 out of maximum 20 players online.".toList =
      ListPollStep.empty := by
  refine ⟨?_, ?_, ?_, ?_, ?_⟩ <;> decide
